import Mathlib

/-
Verification development for the shopping-agent repository
(class_4_shopping_agent_project/shopping_agent.py).

The Python source is embedded shallowly:
  * JSON values (the payloads decoded by the json library) become the
    inductive type `Json`;
  * the catalog client `get_products_api` becomes a total Lean function
    over an explicit HTTP outcome; Python exceptions inside it become
    `Except` values that the surrounding handlers turn into error objects,
    exactly mirroring the try/except structure of the source;
  * the tool-dispatch part of `run_shopping_agent` becomes a pure step
    function over the message transcript, parameterised by oracles for
    the external collaborators (the LLM endpoint, the HTTP transport and
    the json parser).
-/

namespace ShoppingAgent

/-- JSON values as decoded by the json library: the payload language of
the catalog body, of product records and of tool-call arguments. -/
inductive Json where
  | null : Json
  | bool : Bool → Json
  | num : Int → Json
  | str : String → Json
  | arr : List Json → Json
  | obj : List (String × Json) → Json

/-- Python truthiness of a decoded JSON value (used by the source in
the test `if query:`). -/
def truthy : Json → Bool
  | Json.null => false
  | Json.bool b => b
  | Json.num n => decide (n ≠ 0)
  | Json.str s => decide (s ≠ "")
  | Json.arr xs => !xs.isEmpty
  | Json.obj fs => !fs.isEmpty

/-- Embedding of the Python method `str.lower()`: the per-character
lowercase mapping applied to every character of the string. -/
def pyLower (s : String) : String :=
  String.mk (s.data.map Char.toLower)

/-- Embedding of the Python method `str.strip()`: drops the whitespace
run at each end of the string. -/
def pyStrip (s : String) : String :=
  String.mk (((s.data.dropWhile Char.isWhitespace).reverse.dropWhile
    Char.isWhitespace).reverse)

/-- Embedding of the Python dict method call `product.get(k, d)` on a
decoded JSON object given as an association list. -/
def getD (fields : List (String × Json)) (k : String) (d : Json) : Json :=
  match fields.find? (fun kv => kv.1 == k) with
  | some kv => kv.2
  | none => d

/-- View of a JSON value as a Python str, when it is one. -/
def asStr : Json → Option String
  | Json.str s => some s
  | _ => none

/-- Containment of `nee` as a contiguous run inside `hay`, the semantics
of the Python substring test `nee in hay` on character lists. -/
def listContains (hay nee : List Char) : Bool :=
  match hay with
  | [] => nee.isEmpty
  | c :: t => nee.isPrefixOf (c :: t) || listContains t nee

/-- Python substring test `nee in hay` on strings. -/
def strContains (hay nee : String) : Bool :=
  listContains hay.data nee.data

/-- Embedding of the searchable-text construction of the source:
joins `productName`, `description` and `category` (each defaulted to the
empty string via `dict.get`) with single spaces and lower-cases the
result.  A product that is not a dict raises AttributeError on `.get`,
and a present field that is not a str makes the join raise TypeError;
both surface as `Except.error`, as the Python exceptions do. -/
def searchableText (product : Json) : Except String String :=
  match product with
  | Json.obj fields =>
    match asStr (getD fields "productName" (Json.str "")),
          asStr (getD fields "description" (Json.str "")),
          asStr (getD fields "category" (Json.str "")) with
    | some a, some b, some c =>
        Except.ok (pyLower (a ++ " " ++ b ++ " " ++ c))
    | _, _, _ => Except.error "TypeError: sequence item: expected str instance"
  | _ => Except.error "AttributeError: object has no attribute get"

/-- Whether a product survives the filter for the (already lower-cased)
query `ql`. -/
def productMatches (ql : String) (p : Json) : Bool :=
  match searchableText p with
  | Except.ok t => strContains t ql
  | Except.error _ => false

/-- Embedding of the filtering for-loop of the source: builds the list of
products whose searchable text contains the lower-cased query; the first
exception raised while building a searchable text aborts the whole
traversal. -/
def filterLoop (ql : String) : List Json → Except String (List Json)
  | [] => Except.ok []
  | p :: rest =>
    match searchableText p with
    | Except.error e => Except.error e
    | Except.ok t =>
      match filterLoop ql rest with
      | Except.error e => Except.error e
      | Except.ok tail =>
        Except.ok (if strContains t ql then p :: tail else tail)

/-- Equality test of a decoded JSON value against the Python str
literal "data", as evaluated by list membership `"data" in xs`. -/
def elemEqDataStr : Json → Bool
  | Json.str s => s == "data"
  | _ => false

/-- Embedding of the Python expression `"data" not in data` over a
decoded body: key test on dicts, membership on lists, substring test on
strs, TypeError on the remaining types. -/
def dataNotIn : Json → Except String Bool
  | Json.obj fields => Except.ok (!(fields.any (fun kv => kv.1 == "data")))
  | Json.arr xs => Except.ok (!(xs.any elemEqDataStr))
  | Json.str s => Except.ok (!(strContains s "data"))
  | _ => Except.error "TypeError: argument of type is not iterable"

/-- Embedding of the Python subscript `data["data"]`: field lookup on a
dict, TypeError otherwise (string subscripts on lists and strs raise). -/
def getDataField : Json → Except String Json
  | Json.obj fields =>
    match fields.find? (fun kv => kv.1 == "data") with
    | some kv => Except.ok kv.2
    | none => Except.error "KeyError: data"
  | _ => Except.error "TypeError: value is not subscriptable by a str key"

/-- Python isinstance(x, list) on a decoded JSON value. -/
def isJsonList : Json → Bool
  | Json.arr _ => true
  | _ => false

/-- Embedding of the condition
`"data" not in data or not isinstance(data["data"], list)`, with Python
or-short-circuiting: the subscript is only evaluated when the key test
came out False. -/
def invalidCheck (data : Json) : Except String Bool :=
  match dataNotIn data with
  | Except.error e => Except.error e
  | Except.ok true => Except.ok true
  | Except.ok false =>
    match getDataField data with
    | Except.error e => Except.error e
    | Except.ok d => Except.ok (!(isJsonList d))

/-- Python truthiness of the optional `query` parameter (default None). -/
def pyTruthyOpt : Option Json → Bool
  | none => false
  | some v => truthy v

/-- Embedding of `query.lower()`: only a str has the method; on any
other truthy value the call raises AttributeError. -/
def queryLowerE : Option Json → Except String String
  | some (Json.str s) => Except.ok (pyLower s)
  | _ => Except.error "AttributeError: value has no attribute lower"

/-- Embedding of the `if query:` block of the source: when the query is
truthy, lower-case it and run the filtering loop, otherwise keep the
product list untouched. -/
def applyQuery (query : Option Json) (products : List Json) :
    Except String (List Json) :=
  if pyTruthyOpt query then
    match queryLowerE query with
    | Except.error e => Except.error e
    | Except.ok ql => filterLoop ql products
  else Except.ok products

/-- Error string of the invalid-format branch of the source. -/
def invalidFormatMsg : String :=
  "API response format invalid: missing \x27data\x27 key or not a list."

/-- Embedding of the body of `get_products_api` after a successful HTTP
round trip and JSON decode: the format validation, the optional filter
and the final data object; `Except.error` stands for a Python exception
escaping towards the `except Exception` handler. -/
def processBody (query : Option Json) (data : Json) : Except String Json :=
  match invalidCheck data with
  | Except.error e => Except.error e
  | Except.ok true =>
    Except.ok (Json.obj
      [("error", Json.str invalidFormatMsg), ("raw_response", data)])
  | Except.ok false =>
    match getDataField data with
    | Except.error e => Except.error e
    | Except.ok d =>
      match d with
      | Json.arr products =>
        match applyQuery query products with
        | Except.error e => Except.error e
        | Except.ok ps => Except.ok (Json.obj [("data", Json.arr ps)])
      | _ => Except.error "TypeError: unreachable because isinstance held"

/-- Outcome of the HTTP round trip performed by requests.get together
with the body decode of response.json(): either a transport failure
(a RequestException), or a delivered status code with the outcome of
parsing the body as JSON. -/
inductive HttpOutcome where
  | netFail : String → HttpOutcome
  | response : Nat → Except String Json → HttpOutcome

/-- Status codes on which `response.raise_for_status()` raises an
HTTPError, namely 4xx and 5xx. -/
def httpStatusFails (status : Nat) : Bool :=
  decide (400 ≤ status) && decide (status < 600)

/-- Shallow embedding of `get_products_api` from shopping_agent.py.  The
HTTP round trip is an explicit input; the two except-handlers of the
source become the error-object constructions: a RequestException (from
the GET, from raise_for_status or from the body decode) becomes the
failed-to-fetch object, and any other exception escaping the body
becomes the unexpected-error object. -/
def get_products_api (query : Option Json) (out : HttpOutcome) : Json :=
  match out with
  | HttpOutcome.netFail e =>
    Json.obj [("error", Json.str ("Failed to fetch products from API: " ++ e))]
  | HttpOutcome.response status body =>
    if httpStatusFails status then
      Json.obj [("error", Json.str
        ("Failed to fetch products from API: " ++ toString status ++ " HTTP error"))]
    else
      match body with
      | Except.error e =>
        Json.obj [("error", Json.str ("Failed to fetch products from API: " ++ e))]
      | Except.ok data =>
        match processBody query data with
        | Except.ok result => result
        | Except.error e =>
          Json.obj [("error", Json.str ("An unexpected error occurred: " ++ e))]

/-- Whether a returned value is the error variant: an object carrying an
`error` key. -/
def isErrorObj : Json → Bool
  | Json.obj fs => fs.any (fun kv => kv.1 == "error")
  | _ => false

/-- Whether a returned value is the data variant: an object carrying a
`data` key. -/
def isDataObj : Json → Bool
  | Json.obj fs => fs.any (fun kv => kv.1 == "data")
  | _ => false

mutual

/-- Compact rendering of a JSON value back to text, standing for the
serialisation `json.dumps(tool_output, indent=2)` that the source uses
to build the tool-result message content (the embedding renders
compactly; no claim depends on the concrete layout of this text). -/
def dumps : Json → String
  | Json.null => "null"
  | Json.bool b => cond b "true" "false"
  | Json.num n => toString n
  | Json.str s => "\x22" ++ s ++ "\x22"
  | Json.arr xs => "[" ++ dumpsList xs ++ "]"
  | Json.obj fs => "\x7b" ++ dumpsFields fs ++ "\x7d"

def dumpsList : List Json → String
  | [] => ""
  | [x] => dumps x
  | x :: y :: xs => dumps x ++ ", " ++ dumpsList (y :: xs)

def dumpsFields : List (String × Json) → String
  | [] => ""
  | [kv] => "\x22" ++ kv.1 ++ "\x22: " ++ dumps kv.2
  | kv :: kw :: xs =>
    "\x22" ++ kv.1 ++ "\x22: " ++ dumps kv.2 ++ ", " ++ dumpsFields (kw :: xs)

end

/-- Role of a message in the transcript. -/
inductive Role where
  | system : Role
  | user : Role
  | assistant : Role
  | tool : Role
deriving DecidableEq

/-- One tool-call request as delivered inside the model response:
identifier, tool name, and the raw serialized argument payload. -/
structure ToolCall where
  id : String
  name : String
  arguments : String
deriving DecidableEq

/-- One message of the transcript; the optional fields mirror the dicts
and response objects the source appends to `messages`. -/
structure Message where
  role : Role
  content : Option String := none
  tool_calls : List ToolCall := []
  tool_call_id : Option String := none
  name : Option String := none
deriving DecidableEq

/-- Declaration of one callable tool as handed to the LLM endpoint
(name and human description; the parameter schema of the source is a
constant attached to the same entry and plays no role in dispatch). -/
structure ToolDecl where
  name : String
  description : String
deriving DecidableEq

/-- The tool registry of the source, `available_tools`: exactly one
declaration, for `get_products_api`. -/
def available_tools : List ToolDecl :=
  [{ name := "get_products_api",
     description := "Fetch a list of products from an online store, optionally filtered by a search query." }]

/-- One request submitted to the LLM chat endpoint: the transcript sent
plus the tool declarations attached (empty when tools are omitted). -/
structure LlmRequest where
  messages : List Message
  tools : List ToolDecl
deriving DecidableEq

/-- Oracles for the external collaborators of the orchestrator: the
json parser applied to argument payloads, the HTTP transport outcome of
the n-th catalog fetch of the turn, the tool-less follow-up completion
(returning the content of its message, or failing), and the first
completion of the turn (returning the full response message, or
failing). -/
structure Env where
  jsonLoads : String → Except String Json
  http : Nat → HttpOutcome
  followUp : List Message → Except String (Option String)
  firstResponse : List Message → Except String Message

/-- Embedding of keyword application `get_products_api(**args)`: the
decoded payload must be a mapping whose keys are all `query`; the value
of `query` becomes the parameter, absence leaves the default None. -/
def applyKwargs (v : Json) : Except String (Option Json) :=
  match v with
  | Json.obj fields =>
    if fields.all (fun kv => kv.1 == "query") then
      Except.ok (match fields.find? (fun kv => kv.1 == "query") with
        | some kv => some kv.2
        | none => none)
    else Except.error "TypeError: got an unexpected keyword argument"
  | _ => Except.error "TypeError: argument after double-star must be a mapping"

/-- Assistant message with plain prose content. -/
def assistantMsg (c : String) : Message :=
  { role := Role.assistant, content := some c }

/-- Assistant message synthesised on a json.JSONDecodeError while
parsing the argument payload of a call. -/
def malformedArgsMsg (fname rawArgs : String) : Message :=
  assistantMsg ("I encountered an error processing your request: Agent tried to call "
    ++ fname ++ " with invalid JSON arguments: " ++ rawArgs)

/-- Assistant message synthesised by the per-call `except Exception`
handler. -/
def toolExecErrorMsg (e : String) : Message :=
  assistantMsg ("I encountered an error while trying to find products: " ++ e)

/-- Assistant message synthesised when the requested tool name is not
`get_products_api`. -/
def unknownToolMsg (fname : String) : Message :=
  assistantMsg ("I was asked to use an unknown tool (" ++ fname
    ++ "). Please try again or rephrase your request.")

/-- Tool-result message correlating the serialized tool output with the
originating call. -/
def toolResultMsg (tc : ToolCall) (outStr : String) : Message :=
  { role := Role.tool, content := some outStr,
    tool_call_id := some tc.id, name := some tc.name }

/-- Generic apology appended by the outermost `except Exception` of the
session loop. -/
def apologyMsg : Message :=
  assistantMsg "I apologize, but I encountered an error. Could you please try again?"

/-- User message wrapping one input line. -/
def userMsg (s : String) : Message :=
  { role := Role.user, content := some s }

/-- Processing of one tool-call request (the body of the for-loop of
`run_shopping_agent`), given the transcript `msgs` current when the call
is reached and the index `idx` of the call within the turn.  Returns the
messages appended for this call and the LLM requests issued for it.  The
branch structure mirrors the source: unknown tool name first, then the
json decode of the arguments, then keyword application; a successful
execution appends the tool-result message, issues the tool-less
follow-up request on the updated transcript and appends its content as
an assistant message (the per-call `except Exception` turns a follow-up
failure into an error assistant message, after the tool message). -/
def processToolCall (env : Env) (idx : Nat) (msgs : List Message)
    (tc : ToolCall) : List Message × List LlmRequest :=
  if tc.name == "get_products_api" then
    match env.jsonLoads tc.arguments with
    | Except.error _ => ([malformedArgsMsg tc.name tc.arguments], [])
    | Except.ok v =>
      match applyKwargs v with
      | Except.error e => ([toolExecErrorMsg e], [])
      | Except.ok query =>
        let toolMsg := toolResultMsg tc (dumps (get_products_api query (env.http idx)))
        let req : LlmRequest := { messages := msgs ++ [toolMsg], tools := [] }
        match env.followUp (msgs ++ [toolMsg]) with
        | Except.ok c =>
          ([toolMsg, { role := Role.assistant, content := c }], [req])
        | Except.error e => ([toolMsg, toolExecErrorMsg e], [req])
  else
    ([unknownToolMsg tc.name], [])

/-- Sequential dispatch of the tool-call requests of one model turn:
each call is processed against the transcript extended by everything the
earlier calls appended. -/
def dispatchLoop (env : Env) (idx : Nat) (msgs : List Message)
    (log : List LlmRequest) : List ToolCall → List Message × List LlmRequest
  | [] => (msgs, log)
  | tc :: rest =>
    let step := processToolCall env idx msgs tc
    dispatchLoop env (idx + 1) (msgs ++ step.1) (log ++ step.2) rest

/-- The tool-dispatch step of the orchestrator: append the raw response
message (so the tool-call requests stay in the transcript), then run the
per-call loop over its requests. -/
def dispatchStep (env : Env) (msgs : List Message) (rm : Message) :
    List Message × List LlmRequest :=
  dispatchLoop env 0 (msgs ++ [rm]) [] rm.tool_calls

/-- Exit test of the session loop:
`user_input.strip().lower() in ("exit", "quit")`. -/
def isExitInput (s : String) : Bool :=
  pyLower (pyStrip s) == "exit" || pyLower (pyStrip s) == "quit"

/-- Result of one iteration of the session loop: terminate, or continue
with the new transcript. -/
inductive LoopStep where
  | halt : LoopStep
  | next : List Message → LoopStep
deriving DecidableEq

/-- One iteration of the while-loop of `run_shopping_agent`, given the
transcript and the user input line; returns the loop outcome together
with the log of LLM requests issued during the iteration.  An exit
sentinel breaks out before anything is appended; otherwise the user
message is appended, the first completion is requested with the tool
declarations attached, and its outcome selects the direct-answer branch,
the tool-dispatch branch, or the outermost exception handler that
appends the generic apology. -/
def run_shopping_agent_step (env : Env) (msgs : List Message)
    (input : String) : LoopStep × List LlmRequest :=
  if isExitInput input then (LoopStep.halt, [])
  else
    let msgs1 := msgs ++ [userMsg input]
    let req1 : LlmRequest := { messages := msgs1, tools := available_tools }
    match env.firstResponse msgs1 with
    | Except.error _ => (LoopStep.next (msgs1 ++ [apologyMsg]), [req1])
    | Except.ok rm =>
      if rm.tool_calls.isEmpty then
        (LoopStep.next (msgs1 ++ [{ role := Role.assistant, content := rm.content }]), [req1])
      else
        let d := dispatchStep env msgs1 rm
        (LoopStep.next d.1, req1 :: d.2)

/-- Tool-result message carrying a given tool-call identifier. -/
def isToolMsgFor (x : String) (m : Message) : Bool :=
  (m.role == Role.tool) && (m.tool_call_id == some x)

/-- Whether a tool-call request reaches actual execution of the catalog
client: the name matches, the argument payload decodes and the decoded
payload applies as keyword arguments. -/
def callExecutes (env : Env) (tc : ToolCall) : Bool :=
  (tc.name == "get_products_api") &&
    match env.jsonLoads tc.arguments with
    | Except.error _ => false
    | Except.ok v =>
      match applyKwargs v with
      | Except.error _ => false
      | Except.ok _ => true

/-- Number of tool-call requests of a dispatch that execute and carry a
given identifier. -/
def execCount (env : Env) (x : String) : List ToolCall → Nat
  | [] => 0
  | tc :: rest =>
    (if callExecutes env tc = true ∧ tc.id = x then 1 else 0) + execCount env x rest

/-- Demonstration environment used to instantiate the orchestrator
theorems at concrete inputs: the json parser fails on the malformed
payload and decodes anything else to the empty mapping, the transport
fails, the follow-up completion answers with fixed prose and the first
completion fails. -/
def envDemo : Env :=
  { jsonLoads := fun s =>
      if s = "\x7bnot json" then Except.error "Expecting value"
      else Except.ok (Json.obj []),
    http := fun _ => HttpOutcome.netFail "connection refused",
    followUp := fun _ => Except.ok (some "Here are the products."),
    firstResponse := fun _ => Except.error "APIError" }

/-- The boolean substring test agrees with contiguous-sublist
containment. -/
theorem listContains_iff_infix (hay nee : List Char) :
    listContains hay nee = true ↔ nee <:+: hay := by
  induction hay with
  | nil =>
    simp only [listContains, List.isEmpty_iff, List.infix_nil]
  | cons c t ih =>
    simp only [listContains, Bool.or_eq_true, List.isPrefixOf_iff_prefix, ih,
      List.infix_cons_iff]

/-- The Python substring test embeds containment of the character run of
the needle inside that of the haystack. -/
theorem strContains_iff (hay nee : String) :
    strContains hay nee = true ↔ nee.data <:+: hay.data := by
  simp only [strContains, listContains_iff_infix]

/-- On a list of products whose searchable texts all build without an
exception, the filtering loop of the source computes exactly the stable
`List.filter` of the match predicate. -/
theorem filterLoop_eq_filter (ql : String) (l : List Json)
    (h : ∀ p ∈ l, (searchableText p).isOk = true) :
    filterLoop ql l = Except.ok (l.filter (productMatches ql)) := by
  induction l with
  | nil => rfl
  | cons p rest ih =>
    have hp := h p (List.mem_cons_self p rest)
    cases hst : searchableText p with
    | error e => rw [hst] at hp; simp [Except.isOk, Except.toBool] at hp
    | ok t =>
      have hrest := ih (fun x hx => h x (List.mem_cons_of_mem p hx))
      simp only [filterLoop, hst, hrest, List.filter_cons, productMatches]

/-- A run of the filtering loop that came back without an exception saw
every searchable text build successfully. -/
theorem filterLoop_ok_all (ql : String) (l : List Json) (R : List Json)
    (h : filterLoop ql l = Except.ok R) :
    ∀ p ∈ l, (searchableText p).isOk = true := by
  induction l generalizing R with
  | nil => intro p hp; cases hp
  | cons q rest ih =>
    intro p hp
    cases hst : searchableText q with
    | error e => rw [filterLoop, hst] at h; cases h
    | ok t =>
      rw [filterLoop, hst] at h
      cases hrest : filterLoop ql rest with
      | error e => rw [hrest] at h; cases h
      | ok tail =>
        rcases List.mem_cons.mp hp with hpq | hpr
        · subst hpq; rw [hst]; rfl
        · exact ih tail hrest p hpr

/-- A successful run of the filtering loop returns the stable filter of
its input. -/
theorem filterLoop_ok_eq (ql : String) (l : List Json) (R : List Json)
    (h : filterLoop ql l = Except.ok R) :
    R = l.filter (productMatches ql) := by
  have hall := filterLoop_ok_all ql l R h
  rw [filterLoop_eq_filter ql l hall] at h
  injection h with h
  exact h.symm

/-- A computation whose isOk test holds carries an ok value. -/
theorem isOk_exists {ε α : Type} (x : Except ε α) (h : x.isOk = true) :
    ∃ b, x = Except.ok b := by
  cases x with
  | ok b => exact ⟨b, rfl⟩
  | error e => simp [Except.isOk, Except.toBool] at h

/-- Unfolding of the catalog client on a delivered 200 response with a
decoded body. -/
theorem get_products_api_ok (query : Option Json) (body : Json) :
    get_products_api query (HttpOutcome.response 200 (Except.ok body)) =
      match processBody query body with
      | Except.ok r => r
      | Except.error e =>
        Json.obj [("error", Json.str ("An unexpected error occurred: " ++ e))] := rfl

/-- Unfolding of the body processing on a well-formed data body whose
query application succeeds. -/
theorem processBody_dataBody (query : Option Json) (P ps : List Json)
    (h : applyQuery query P = Except.ok ps) :
    processBody query (Json.obj [("data", Json.arr P)]) =
      Except.ok (Json.obj [("data", Json.arr ps)]) := by
  have h1 : invalidCheck (Json.obj [("data", Json.arr P)]) = Except.ok false := rfl
  have h2 : getDataField (Json.obj [("data", Json.arr P)]) =
      Except.ok (Json.arr P) := rfl
  simp only [processBody, h1, h2, h]

/-- Claim C1: for every non-empty query string and every product list
decoded from the catalog body (whose records are objects with string or
missing name, description and category fields, so that the searchable
text builds), the fetch returns the stable subsequence of the products,
in original order, consisting exactly of those whose lower-cased
space-joined name, description and category contains the lower-cased
query as a substring. -/
theorem C1_fetch_filters_by_searchable_substring (q : String) (P : List Json)
    (hq : q ≠ "")
    (hP : ∀ p ∈ P, (searchableText p).isOk = true) :
    ∃ R, get_products_api (some (Json.str q))
        (HttpOutcome.response 200 (Except.ok (Json.obj [("data", Json.arr P)])))
        = Json.obj [("data", Json.arr R)]
      ∧ R.Sublist P
      ∧ ∀ p, p ∈ R ↔ p ∈ P ∧
          ∃ t, searchableText p = Except.ok t ∧ (pyLower q).data <:+: t.data := by
  refine ⟨P.filter (productMatches (pyLower q)), ?_, List.filter_sublist P, ?_⟩
  · have happ : applyQuery (some (Json.str q)) P =
        Except.ok (P.filter (productMatches (pyLower q))) := by
      have htr : pyTruthyOpt (some (Json.str q)) = true := by
        simp [pyTruthyOpt, truthy, hq]
      rw [applyQuery, htr, if_pos rfl, queryLowerE]
      exact filterLoop_eq_filter (pyLower q) P hP
    rw [get_products_api_ok, processBody_dataBody (some (Json.str q)) P _ happ]
  · intro p
    rw [List.mem_filter]
    constructor
    · rintro ⟨hp, hm⟩
      refine ⟨hp, ?_⟩
      obtain ⟨t, hst⟩ := isOk_exists _ (hP p hp)
      simp only [productMatches, hst] at hm
      exact ⟨t, hst, (strContains_iff t (pyLower q)).mp hm⟩
    · rintro ⟨hp, t, hst, hinf⟩
      refine ⟨hp, ?_⟩
      simp only [productMatches, hst]
      exact (strContains_iff t (pyLower q)).mpr hinf

/-- Witness for claim C1 at a concrete query and product list. -/
theorem C1_witness :
    ∃ R, get_products_api (some (Json.str "Sh"))
        (HttpOutcome.response 200 (Except.ok (Json.obj [("data", Json.arr
          [Json.obj [("productName", Json.str "Shoes")],
           Json.obj [("productName", Json.str "Watch")]])])))
        = Json.obj [("data", Json.arr R)]
      ∧ R.Sublist
          [Json.obj [("productName", Json.str "Shoes")],
           Json.obj [("productName", Json.str "Watch")]]
      ∧ ∀ p, p ∈ R ↔ p ∈
          [Json.obj [("productName", Json.str "Shoes")],
           Json.obj [("productName", Json.str "Watch")]] ∧
          ∃ t, searchableText p = Except.ok t ∧ (pyLower "Sh").data <:+: t.data :=
  C1_fetch_filters_by_searchable_substring "Sh"
    [Json.obj [("productName", Json.str "Shoes")],
     Json.obj [("productName", Json.str "Watch")]]
    (by decide) (by decide)

/-- Claim C7: on a catalog body carrying a product list, the fetch with
an absent query (the None default) and the fetch with an empty query
string both return exactly the full product list, same order and same
cardinality (no filtering is applied, products are passed through
untouched). -/
theorem C7_empty_query_returns_all (P : List Json) :
    get_products_api none
        (HttpOutcome.response 200 (Except.ok (Json.obj [("data", Json.arr P)])))
      = Json.obj [("data", Json.arr P)]
    ∧ get_products_api (some (Json.str ""))
        (HttpOutcome.response 200 (Except.ok (Json.obj [("data", Json.arr P)])))
      = Json.obj [("data", Json.arr P)] := by
  constructor
  · rw [get_products_api_ok, processBody_dataBody none P P rfl]
  · rw [get_products_api_ok, processBody_dataBody (some (Json.str "")) P P rfl]

/-- Claim C10: the local substring filter is idempotent: when filtering
a product list succeeds, filtering its own output again with the same
query returns that output unchanged. -/
theorem C10_filter_idempotent (ql : String) (P R : List Json)
    (h : filterLoop ql P = Except.ok R) :
    filterLoop ql R = Except.ok R := by
  have hall := filterLoop_ok_all ql P R h
  have hR := filterLoop_ok_eq ql P R h
  have hallR : ∀ p ∈ R, (searchableText p).isOk = true := by
    intro p hp
    exact hall p (List.mem_of_mem_filter (hR ▸ hp))
  rw [filterLoop_eq_filter ql R hallR]
  congr 1
  rw [List.filter_eq_self]
  intro p hp
  exact (List.mem_filter.mp (hR ▸ hp)).2

/-- Witness for claim C10 at a concrete query and product list. -/
theorem C10_witness :
    filterLoop "a" [Json.obj [("productName", Json.str "Apple")]]
      = Except.ok [Json.obj [("productName", Json.str "Apple")]] :=
  C10_filter_idempotent "a"
    [Json.obj [("productName", Json.str "Apple")],
     Json.obj [("productName", Json.str "Box")]]
    [Json.obj [("productName", Json.str "Apple")]]
    (by rfl)

/-- Every ok result of the body processing is an object carrying either
a data key or an error key (the two variants of a CatalogResult). -/
theorem processBody_shape (query : Option Json) (data r : Json)
    (h : processBody query data = Except.ok r) :
    (isErrorObj r || isDataObj r) = true := by
  unfold processBody at h
  split at h
  · cases h
  · injection h with h
    subst h
    rfl
  · split at h
    · cases h
    · split at h
      · split at h
        · cases h
        · injection h with h
          subst h
          rfl
      · cases h

/-- Claim C5: the catalog client is total over every transport outcome:
its result is always the data variant or the error variant (it never
raises to its caller), a network failure produces the error variant, and
a delivered non-2xx status (delivered statuses being the 2xx and the
4xx/5xx ones, since the transport layer resolves informational and
redirect responses) produces the error variant. -/
theorem C5_fetch_never_raises (q : Option Json) (out : HttpOutcome) :
    (isErrorObj (get_products_api q out) || isDataObj (get_products_api q out)) = true
    ∧ (∀ e, out = HttpOutcome.netFail e →
        isErrorObj (get_products_api q out) = true)
    ∧ (∀ s body, out = HttpOutcome.response s body →
        200 ≤ s → s < 600 → ¬(300 ≤ s ∧ s < 400) → ¬(s < 300) →
        isErrorObj (get_products_api q out) = true) := by
  refine ⟨?_, ?_, ?_⟩
  · cases out with
    | netFail e => rfl
    | response s body =>
      cases hf : httpStatusFails s with
      | true => simp [get_products_api, hf, isErrorObj]
      | false =>
        cases body with
        | error e => simp [get_products_api, hf, isErrorObj]
        | ok data =>
          cases hpb : processBody q data with
          | error e => simp [get_products_api, hf, hpb, isErrorObj]
          | ok r =>
            have hs := processBody_shape q data r hpb
            simp [get_products_api, hf, hpb, hs]
  · rintro e rfl
    rfl
  · rintro s body rfl h200 h600 h3xx h2xx
    have hfail : httpStatusFails s = true := by
      unfold httpStatusFails
      have h400 : 400 ≤ s := by omega
      simp [h400, h600]
    simp [get_products_api, hfail, isErrorObj]

/-- Witness for claim C5 at a concrete non-2xx delivered status. -/
theorem C5_witness :
    isErrorObj (get_products_api none (HttpOutcome.response 404 (Except.ok Json.null)))
      = true :=
  (C5_fetch_never_raises none (HttpOutcome.response 404 (Except.ok Json.null))).2.2
    404 (Except.ok Json.null) rfl (by omega) (by omega) (by omega) (by omega)

/-- Claim C6: on a delivered 2xx response whose decoded body is a
mapping in which the data key is missing or its value is not a list,
the fetch returns the invalid-format error variant carrying a
descriptive message and the raw body under raw_response, without
raising. -/
theorem C6_invalid_body_error (q : Option Json) (fields : List (String × Json))
    (h : ((fields.find? (fun kv => kv.1 == "data")).all
          (fun kv => !(isJsonList kv.2))) = true) :
    get_products_api q (HttpOutcome.response 200 (Except.ok (Json.obj fields)))
      = Json.obj [("error", Json.str invalidFormatMsg),
                  ("raw_response", Json.obj fields)] := by
  have hinv : invalidCheck (Json.obj fields) = Except.ok true := by
    cases hany : fields.any (fun kv => kv.1 == "data") with
    | false =>
      simp only [invalidCheck, dataNotIn, hany, Bool.not_false]
    | true =>
      have hsome : (fields.find? (fun kv => kv.1 == "data")).isSome := by
        rw [List.find?_isSome]
        exact List.any_eq_true.mp hany
      obtain ⟨kv, hfind⟩ := Option.isSome_iff_exists.mp hsome
      rw [hfind] at h
      simp only [Option.all_some, Bool.not_eq_true'] at h
      simp only [invalidCheck, dataNotIn, hany, Bool.not_true, getDataField, hfind, h,
        Bool.not_false]
  rw [get_products_api_ok]
  simp only [processBody, hinv]

/-- Witness for claim C6 at the concrete body whose data field is not a
list. -/
theorem C6_witness :
    get_products_api none
        (HttpOutcome.response 200 (Except.ok (Json.obj [("data", Json.str "not-a-list")])))
      = Json.obj [("error", Json.str invalidFormatMsg),
                  ("raw_response", Json.obj [("data", Json.str "not-a-list")])] :=
  C6_invalid_body_error none [("data", Json.str "not-a-list")] (by rfl)

/-- The messages appended for one call contain exactly one tool-result
message with identifier x when the call executes and its identifier is
x, and none otherwise. -/
theorem countP_processToolCall (env : Env) (idx : Nat) (msgs : List Message)
    (tc : ToolCall) (x : String) :
    List.countP (isToolMsgFor x) (processToolCall env idx msgs tc).1
      = if callExecutes env tc = true ∧ tc.id = x then 1 else 0 := by
  cases hname : (tc.name == "get_products_api") with
  | false =>
    simp [processToolCall, callExecutes, hname, unknownToolMsg, assistantMsg,
      isToolMsgFor]
  | true =>
    cases hload : env.jsonLoads tc.arguments with
    | error e =>
      simp [processToolCall, callExecutes, hname, hload, malformedArgsMsg,
        assistantMsg, isToolMsgFor]
    | ok v =>
      cases hkw : applyKwargs v with
      | error e =>
        simp [processToolCall, callExecutes, hname, hload, hkw, toolExecErrorMsg,
          assistantMsg, isToolMsgFor]
      | ok query =>
        have hce : callExecutes env tc = true := by
          simp [callExecutes, hname, hload, hkw]
        simp only [processToolCall, hname, hload, hkw]
        cases hfu : env.followUp
            (msgs ++ [toolResultMsg tc (dumps (get_products_api query (env.http idx)))]) with
        | ok c =>
          by_cases hx : tc.id = x
          · subst hx
            simp [isToolMsgFor, toolResultMsg, assistantMsg, hce]
          · simp [isToolMsgFor, toolResultMsg, assistantMsg, hx]
        | error e =>
          by_cases hx : tc.id = x
          · subst hx
            simp [isToolMsgFor, toolResultMsg, assistantMsg, toolExecErrorMsg, hce]
          · simp [isToolMsgFor, toolResultMsg, assistantMsg, toolExecErrorMsg, hx]

/-- The dispatch loop only appends messages and requests. -/
theorem dispatchLoop_append (env : Env) :
    ∀ (tcs : List ToolCall) (idx : Nat) (msgs : List Message) (log : List LlmRequest),
    ∃ tail logTail,
      (dispatchLoop env idx msgs log tcs).1 = msgs ++ tail
      ∧ (dispatchLoop env idx msgs log tcs).2 = log ++ logTail := by
  intro tcs
  induction tcs with
  | nil => intro idx msgs log; exact ⟨[], [], by simp [dispatchLoop], by simp [dispatchLoop]⟩
  | cons tc rest ih =>
    intro idx msgs log
    obtain ⟨tail, logTail, h1, h2⟩ :=
      ih (idx + 1) (msgs ++ (processToolCall env idx msgs tc).1)
        (log ++ (processToolCall env idx msgs tc).2)
    exact ⟨(processToolCall env idx msgs tc).1 ++ tail,
           (processToolCall env idx msgs tc).2 ++ logTail,
           by rw [dispatchLoop, h1, List.append_assoc],
           by rw [dispatchLoop, h2, List.append_assoc]⟩

/-- Counting tool-result messages with a given identifier across the
dispatch loop. -/
theorem countP_dispatchLoop (env : Env) (x : String) :
    ∀ (tcs : List ToolCall) (idx : Nat) (msgs : List Message) (log : List LlmRequest),
    List.countP (isToolMsgFor x) (dispatchLoop env idx msgs log tcs).1
      = List.countP (isToolMsgFor x) msgs + execCount env x tcs := by
  intro tcs
  induction tcs with
  | nil => intro idx msgs log; simp [dispatchLoop, execCount]
  | cons tc rest ih =>
    intro idx msgs log
    rw [dispatchLoop, ih, List.countP_append, countP_processToolCall, execCount]
    omega

/-- No executing call of the list carries identifier x when x is not
among the identifiers. -/
theorem execCount_eq_zero (env : Env) (x : String) :
    ∀ (tcs : List ToolCall), x ∉ tcs.map ToolCall.id → execCount env x tcs = 0 := by
  intro tcs
  induction tcs with
  | nil => intro _; rfl
  | cons tc rest ih =>
    intro hx
    rw [List.map_cons, List.mem_cons] at hx
    push_neg at hx
    rw [execCount, ih hx.2, if_neg]
    rintro ⟨-, hid⟩
    exact hx.1 hid.symm

/-- With pairwise-distinct identifiers, an executing member contributes
exactly one tool-result message with its identifier. -/
theorem execCount_eq_one (env : Env) (tc : ToolCall) :
    ∀ (tcs : List ToolCall), tc ∈ tcs → callExecutes env tc = true →
    (tcs.map ToolCall.id).Nodup → execCount env tc.id tcs = 1 := by
  intro tcs
  induction tcs with
  | nil => intro h; cases h
  | cons hd rest ih =>
    intro hmem hexec hnodup
    rw [List.map_cons, List.nodup_cons] at hnodup
    rcases List.mem_cons.mp hmem with heq | hmem'
    · subst heq
      rw [execCount, if_pos ⟨hexec, rfl⟩, execCount_eq_zero env tc.id rest hnodup.1]
    · have hne : hd.id ≠ tc.id := by
        intro h
        exact hnodup.1 (h ▸ List.mem_map_of_mem ToolCall.id hmem')
      rw [execCount, if_neg (by rintro ⟨-, h⟩; exact hne h), ih hmem' hexec hnodup.2]

/-- Claim C2 (amended): for every tool-call request of the model
response that actually executes (matching tool name, decodable and
applicable argument payload), provided the identifiers of the turn are
pairwise distinct and the prior transcript carries no tool-result
message with that identifier, the transcript after dispatch contains
exactly one tool-result message with that identifier, and that message
sits after the appended assistant message that emitted the request. -/
theorem C2_executed_call_unique_tool_result (env : Env) (msgs : List Message)
    (rm : Message) (tc : ToolCall)
    (hrole : rm.role = Role.assistant)
    (hmem : tc ∈ rm.tool_calls)
    (hnodup : (rm.tool_calls.map ToolCall.id).Nodup)
    (hexec : callExecutes env tc = true)
    (hprior : msgs.countP (isToolMsgFor tc.id) = 0) :
    List.countP (isToolMsgFor tc.id) (dispatchStep env msgs rm).1 = 1
    ∧ ∃ mid post t,
        (dispatchStep env msgs rm).1 = msgs ++ rm :: (mid ++ t :: post)
        ∧ t.role = Role.tool ∧ t.tool_call_id = some tc.id := by
  have hrm : isToolMsgFor tc.id rm = false := by
    simp [isToolMsgFor, hrole]
  have hpre : List.countP (isToolMsgFor tc.id) (msgs ++ [rm]) = 0 := by
    simp [List.countP_append, hprior, List.countP_cons, hrm]
  have hcount : List.countP (isToolMsgFor tc.id) (dispatchStep env msgs rm).1 = 1 := by
    rw [dispatchStep, countP_dispatchLoop, hpre,
      execCount_eq_one env tc rm.tool_calls hmem hexec hnodup]
  refine ⟨hcount, ?_⟩
  obtain ⟨tail, logTail, h1, -⟩ :=
    dispatchLoop_append env rm.tool_calls 0 (msgs ++ [rm]) []
  rw [dispatchStep] at hcount ⊢
  rw [h1] at hcount ⊢
  rw [List.countP_append, hpre, Nat.zero_add] at hcount
  have htailpos : 0 < List.countP (isToolMsgFor tc.id) tail := by omega
  obtain ⟨t, htmem, htp⟩ := List.countP_pos_iff.mp htailpos
  obtain ⟨mid, post, htail⟩ := List.append_of_mem htmem
  refine ⟨mid, post, t, ?_, ?_, ?_⟩
  · rw [htail, List.append_assoc, List.singleton_append]
  · have := (Bool.and_eq_true _ _).mp htp
    exact eq_of_beq this.1
  · have := (Bool.and_eq_true _ _).mp htp
    exact eq_of_beq this.2

/-- Witness for claim C2 (amended) at a concrete environment, response
message and executing call. -/
theorem C2_witness :
    List.countP (isToolMsgFor "call_1")
      (dispatchStep envDemo []
        { role := Role.assistant,
          tool_calls := [{ id := "call_1", name := "get_products_api",
                           arguments := "\x7b\x7d" }] }).1 = 1
    ∧ ∃ mid post t,
        (dispatchStep envDemo []
          { role := Role.assistant,
            tool_calls := [{ id := "call_1", name := "get_products_api",
                             arguments := "\x7b\x7d" }] }).1
          = [] ++ { role := Role.assistant,
                    tool_calls := [{ id := "call_1", name := "get_products_api",
                                     arguments := "\x7b\x7d" }] } :: (mid ++ t :: post)
        ∧ t.role = Role.tool ∧ t.tool_call_id = some "call_1" :=
  C2_executed_call_unique_tool_result envDemo []
    { role := Role.assistant,
      tool_calls := [{ id := "call_1", name := "get_products_api",
                       arguments := "\x7b\x7d" }] }
    { id := "call_1", name := "get_products_api", arguments := "\x7b\x7d" }
    rfl (List.mem_singleton.mpr rfl) (by decide) (by decide) rfl

/-- Counterexample to claim C2 as stated: a tool-call request carrying
identifier x whose tool name is unknown produces, after dispatch, no
tool-result message with identifier x at all (the count is zero, not
one). -/
theorem C2_counterexample :
    List.countP (isToolMsgFor "x")
      (dispatchStep envDemo []
        { role := Role.assistant,
          tool_calls := [{ id := "x", name := "foo", arguments := "\x7b\x7d" }] }).1
      ≠ 1 := by
  decide

/-- Containment of a needle in a middle segment extends to the
surrounding concatenation. -/
theorem strContains_append_of (hay₁ hay₂ hay₃ nee : String)
    (h : strContains hay₂ nee = true) :
    strContains (hay₁ ++ hay₂ ++ hay₃) nee = true := by
  rw [strContains_iff] at h ⊢
  refine h.trans ?_
  rw [String.data_append, String.data_append]
  exact List.infix_append hay₁.data hay₂.data hay₃.data

/-- Claim C3: a successfully executed tool call appends its tool-result
message and then immediately issues exactly one LLM request, on the
transcript updated with that tool-result message, with the tool
declarations omitted; when that follow-up completion returns, its
content is appended right after the tool message as a new assistant
message; and the dispatch loop processes the calls of the turn strictly
sequentially, each later call starting from the transcript extended by
everything the earlier call appended. -/
theorem C3_immediate_toolless_followup (env : Env) (idx : Nat)
    (msgs : List Message) (tc : ToolCall) (v : Json) (query : Option Json)
    (hname : tc.name = "get_products_api")
    (hload : env.jsonLoads tc.arguments = Except.ok v)
    (hkw : applyKwargs v = Except.ok query) :
    (∃ asst,
      processToolCall env idx msgs tc =
        ([toolResultMsg tc (dumps (get_products_api query (env.http idx))), asst],
         [{ messages := msgs ++
              [toolResultMsg tc (dumps (get_products_api query (env.http idx)))],
            tools := [] }])
      ∧ asst.role = Role.assistant
      ∧ ∀ c, env.followUp (msgs ++
            [toolResultMsg tc (dumps (get_products_api query (env.http idx)))])
          = Except.ok c → asst.content = c)
    ∧ ∀ log rest, dispatchLoop env idx msgs log (tc :: rest) =
        dispatchLoop env (idx + 1) (msgs ++ (processToolCall env idx msgs tc).1)
          (log ++ (processToolCall env idx msgs tc).2) rest := by
  constructor
  · have hname' : (tc.name == "get_products_api") = true := by
      simp [hname]
    simp only [processToolCall, hname', hload, hkw, if_true]
    cases hfu : env.followUp (msgs ++
        [toolResultMsg tc (dumps (get_products_api query (env.http idx)))]) with
    | ok c =>
      refine ⟨{ role := Role.assistant, content := c }, rfl, rfl, ?_⟩
      intro c' hc'
      injection hc' with hc'
    | error e =>
      refine ⟨toolExecErrorMsg e, rfl, rfl, ?_⟩
      intro c' hc'
      cases hc'
  · intro log rest
    rfl

/-- Witness for claim C3 at a concrete environment and call. -/
theorem C3_witness :
    (∃ asst,
      processToolCall envDemo 0 []
          { id := "call_1", name := "get_products_api", arguments := "\x7b\x7d" } =
        ([toolResultMsg
            { id := "call_1", name := "get_products_api", arguments := "\x7b\x7d" }
            (dumps (get_products_api none (envDemo.http 0))), asst],
         [{ messages := [] ++
              [toolResultMsg
                { id := "call_1", name := "get_products_api", arguments := "\x7b\x7d" }
                (dumps (get_products_api none (envDemo.http 0)))],
            tools := [] }])
      ∧ asst.role = Role.assistant
      ∧ ∀ c, envDemo.followUp ([] ++
            [toolResultMsg
              { id := "call_1", name := "get_products_api", arguments := "\x7b\x7d" }
              (dumps (get_products_api none (envDemo.http 0)))])
          = Except.ok c → asst.content = c)
    ∧ ∀ log rest, dispatchLoop envDemo 0 [] log
        ({ id := "call_1", name := "get_products_api", arguments := "\x7b\x7d" } :: rest) =
        dispatchLoop envDemo 1
          ([] ++ (processToolCall envDemo 0 []
            { id := "call_1", name := "get_products_api", arguments := "\x7b\x7d" }).1)
          (log ++ (processToolCall envDemo 0 []
            { id := "call_1", name := "get_products_api", arguments := "\x7b\x7d" }).2) rest :=
  C3_immediate_toolless_followup envDemo 0 []
    { id := "call_1", name := "get_products_api", arguments := "\x7b\x7d" }
    (Json.obj []) none rfl rfl rfl

/-- Claim C4 (amended): for every tool-call request addressed to
`get_products_api` whose argument payload fails to decode as JSON, the
dispatch appends exactly one assistant message, whose text reports the
invalid-JSON-arguments error; no tool is invoked (no tool-result message
is appended and no LLM request is issued for the call), the transcript
is otherwise unchanged, and the loop proceeds to the next request. -/
theorem C4_malformed_arguments_per_call (env : Env) (idx : Nat)
    (msgs : List Message) (tc : ToolCall) (e : String)
    (hname : tc.name = "get_products_api")
    (hload : env.jsonLoads tc.arguments = Except.error e) :
    processToolCall env idx msgs tc = ([malformedArgsMsg tc.name tc.arguments], [])
    ∧ (malformedArgsMsg tc.name tc.arguments).role = Role.assistant
    ∧ (∃ s, (malformedArgsMsg tc.name tc.arguments).content = some s
        ∧ strContains s "invalid JSON arguments" = true)
    ∧ ∀ log rest, dispatchLoop env idx msgs log (tc :: rest) =
        dispatchLoop env (idx + 1) (msgs ++ [malformedArgsMsg tc.name tc.arguments])
          log rest := by
  have hname' : (tc.name == "get_products_api") = true := by
    simp [hname]
  have heq : processToolCall env idx msgs tc
      = ([malformedArgsMsg tc.name tc.arguments], []) := by
    simp only [processToolCall, hname', hload, if_true]
  refine ⟨heq, rfl, ⟨_, rfl, ?_⟩, ?_⟩
  · exact strContains_append_of
      ("I encountered an error processing your request: Agent tried to call " ++ tc.name)
      " with invalid JSON arguments: " tc.arguments "invalid JSON arguments"
      (by decide)
  · intro log rest
    show dispatchLoop env (idx + 1) (msgs ++ (processToolCall env idx msgs tc).1)
        (log ++ (processToolCall env idx msgs tc).2) rest = _
    rw [heq]
    simp

/-- Witness for claim C4 (amended) at a concrete call whose payload
fails to decode. -/
theorem C4_witness :
    processToolCall envDemo 0 []
        { id := "id1", name := "get_products_api", arguments := "\x7bnot json" }
      = ([malformedArgsMsg "get_products_api" "\x7bnot json"], [])
    ∧ (malformedArgsMsg "get_products_api" "\x7bnot json").role = Role.assistant
    ∧ (∃ s, (malformedArgsMsg "get_products_api" "\x7bnot json").content = some s
        ∧ strContains s "invalid JSON arguments" = true)
    ∧ ∀ log rest, dispatchLoop envDemo 0 [] log
        ({ id := "id1", name := "get_products_api", arguments := "\x7bnot json" } :: rest) =
        dispatchLoop envDemo 1
          ([] ++ [malformedArgsMsg "get_products_api" "\x7bnot json"]) log rest :=
  C4_malformed_arguments_per_call envDemo 0 []
    { id := "id1", name := "get_products_api", arguments := "\x7bnot json" }
    "Expecting value" rfl rfl

/-- Counterexample to claim C4 as stated: a tool-call request whose
payload fails to decode but whose tool name is unknown is answered with
the unknown-tool assistant message, not with a malformed-arguments
report (the code checks the tool name before decoding the arguments). -/
theorem C4_counterexample :
    envDemo.jsonLoads "\x7bnot json" = Except.error "Expecting value"
    ∧ processToolCall envDemo 0 []
        { id := "id1", name := "foo", arguments := "\x7bnot json" }
      = ([unknownToolMsg "foo"], [])
    ∧ strContains ((unknownToolMsg "foo").content.getD "") "invalid JSON arguments"
      = false := by
  refine ⟨rfl, rfl, by decide⟩

/-- Claim C8 (amended): an input line whose whitespace-trimmed,
lower-cased form equals `exit` or `quit` terminates the session loop
with no LLM request issued; any other line — including the empty line,
which the code does not treat as a terminator — is appended as a user
message and the loop proceeds to the model call (the first issued
request carries the extended transcript and the tool declarations). -/
theorem C8_exit_sentinel (env : Env) (msgs : List Message) (input : String) :
    (isExitInput input = true →
      run_shopping_agent_step env msgs input = (LoopStep.halt, []))
    ∧ (isExitInput input = false → ∃ t log,
        run_shopping_agent_step env msgs input
          = (LoopStep.next t,
             { messages := msgs ++ [userMsg input], tools := available_tools } :: log)) := by
  constructor
  · intro h
    simp [run_shopping_agent_step, h]
  · intro h
    simp only [run_shopping_agent_step, h, Bool.false_eq_true, if_false]
    cases hfr : env.firstResponse (msgs ++ [userMsg input]) with
    | error e => exact ⟨_, [], rfl⟩
    | ok rm =>
      cases he : rm.tool_calls.isEmpty with
      | true =>
        exact ⟨msgs ++ [userMsg input] ++ [{ role := Role.assistant, content := rm.content }],
          [], by simp [he]⟩
      | false =>
        exact ⟨(dispatchStep env (msgs ++ [userMsg input]) rm).1,
          (dispatchStep env (msgs ++ [userMsg input]) rm).2, by simp [he]⟩

/-- Witness for claim C8 (amended) at the concrete sentinel input. -/
theorem C8_witness :
    run_shopping_agent_step envDemo [] " Quit " = (LoopStep.halt, []) :=
  (C8_exit_sentinel envDemo [] " Quit ").1 (by decide)

/-- Counterexample to claim C8 as stated: the empty input line does not
terminate the session loop — the code only breaks on the exit sentinels,
so the empty line is appended as a user message and the turn proceeds. -/
theorem C8_counterexample :
    (run_shopping_agent_step envDemo [] "").1 ≠ LoopStep.halt := by
  decide

/-- Claim C9: when the input is not an exit sentinel, one loop iteration
always continues the session (it never terminates the loop), and a
failure of the model call is caught at the loop boundary: the generic
apology assistant message is appended after the user message and the
loop returns to awaiting input. -/
theorem C9_turn_failure_caught (env : Env) (msgs : List Message) (input : String)
    (hne : isExitInput input = false) :
    (∃ t, (run_shopping_agent_step env msgs input).1 = LoopStep.next t)
    ∧ ∀ e, env.firstResponse (msgs ++ [userMsg input]) = Except.error e →
        run_shopping_agent_step env msgs input
          = (LoopStep.next (msgs ++ [userMsg input] ++ [apologyMsg]),
             [{ messages := msgs ++ [userMsg input], tools := available_tools }]) := by
  constructor
  · simp only [run_shopping_agent_step, hne, Bool.false_eq_true, if_false]
    cases hfr : env.firstResponse (msgs ++ [userMsg input]) with
    | error e => exact ⟨_, rfl⟩
    | ok rm =>
      cases he : rm.tool_calls.isEmpty with
      | true =>
        exact ⟨msgs ++ [userMsg input] ++ [{ role := Role.assistant, content := rm.content }],
          by simp [he]⟩
      | false =>
        exact ⟨(dispatchStep env (msgs ++ [userMsg input]) rm).1, by simp [he]⟩
  · intro e hfr
    simp [run_shopping_agent_step, hne, hfr]

/-- Witness for claim C9 at a concrete environment whose model call
fails. -/
theorem C9_witness :
    (∃ t, (run_shopping_agent_step envDemo [] "hello").1 = LoopStep.next t)
    ∧ ∀ e, envDemo.firstResponse ([] ++ [userMsg "hello"]) = Except.error e →
        run_shopping_agent_step envDemo [] "hello"
          = (LoopStep.next ([] ++ [userMsg "hello"] ++ [apologyMsg]),
             [{ messages := [] ++ [userMsg "hello"], tools := available_tools }]) :=
  C9_turn_failure_caught envDemo [] "hello" (by decide)

end ShoppingAgent
